import Mathlib

/-
Verification of the homenavi authentication and session-lifecycle core.
The repository snapshot carries only the test suites of the auth service,
the API gateway and the user service; the service implementations are not
present. The model below is therefore a shallow embedding reconstructed
from the specification text, with every observable constant pinned by the
test suites where they decide it.
-/

namespace Homenavi

/-- Modelled from the spec: role enumeration with order user < resident < admin
(spec section 3, User). The auth-service implementation is not in the snapshot,
only its tests, so the data model follows the specification text. -/
inductive Role
  | user
  | resident
  | admin
deriving DecidableEq, Fintype

/-- Modelled from the spec: the second-factor method of a user, off or email
(spec section 3, User). -/
inductive TwoFA
  | off
  | email
deriving DecidableEq

/-- Modelled from the spec: the User identity record (spec section 3). -/
structure User where
  id : Nat
  email : String
  username : String
  passwordHash : String
  role : Role
  emailVerified : Bool
  locked : Bool
  twofa : TwoFA
deriving DecidableEq

/-- Modelled from the spec: purposes of one-time codes (spec section 3). -/
inductive CodePurpose
  | emailVerify
  | passwordReset
  | twofaLogin
  | twofaSetup
deriving DecidableEq

/-- Modelled from the spec: single-use, time-limited one-time code row; only a
hash of the code is stored (spec section 3). -/
structure OneTimeCode where
  purpose : CodePurpose
  userId : Nat
  codeHash : Nat
  expiresAt : Nat
  consumedAt : Option Nat
deriving DecidableEq

/-- Modelled from the spec: ephemeral pending-login record between login/start
and login/finish (spec section 3). -/
structure PendingLogin where
  pendingId : Nat
  userId : Nat
  expiresAt : Nat
deriving DecidableEq

/-- Modelled from the spec: persisted refresh-token row; the raw secret is never
stored, only its hash; rotation links successors through replacedBy
(spec section 3). -/
structure RefreshToken where
  id : Nat
  userId : Nat
  tokenHash : Nat
  issuedAt : Nat
  expiresAt : Nat
  revokedAt : Option Nat
  replacedBy : Option Nat
deriving DecidableEq

/-- Modelled from the spec: access-token claims, user id plus role plus expiry
(spec section 3). -/
structure Claims where
  userId : Nat
  role : Role
  exp : Nat
deriving DecidableEq

/-- Modelled from the spec: a signed, self-contained access token; it is never
persisted (spec section 3). -/
structure AccessToken where
  claims : Claims
  sig : Nat
deriving DecidableEq

/-- Modelled from the spec: the whole service state, credential store, token
store, pending logins, one-time codes, a fresh-id counter and the clock
(spec sections 3 and 9). -/
structure AuthState where
  users : List User
  tokens : List RefreshToken
  pendings : List PendingLogin
  codes : List OneTimeCode
  nextId : Nat
  now : Nat
deriving DecidableEq

/-- Modelled from the spec: access tokens are short-lived (spec section 4.4). -/
def accessTTL : Nat := 900

/-- Modelled from the spec: refresh tokens are long-lived (spec section 4.4). -/
def refreshTTL : Nat := 86400

/-- Modelled from the spec: pending logins expire within a short fixed window
(spec section 3). -/
def pendingTTL : Nat := 300

/-- Modelled from the spec: one-time codes expire after a fixed TTL
(spec section 4.2). -/
def codeTTL : Nat := 900

/-- Modelled from the spec: the server-side signing key for access tokens
(spec section 4.4). -/
def signingKey : Nat := 17

/-- Modelled from the spec: the salted slow password hash, abstracted as an
injective tagging function on plaintexts (spec section 4.1). -/
def hashPassword (pw : String) : String :=
  String.append "pwh:" pw

/-- Modelled from the spec: abstract refresh-token secret generated from the
fresh id counter (spec section 4.4). -/
def mkSecret (n : Nat) : Nat := n

/-- Modelled from the spec: the hash under which a refresh-token secret is
stored, injective by construction (spec section 4.4). -/
def hashSecret (secretVal : Nat) : Nat := secretVal + 1000003

/-- Modelled from the spec: abstract one-time code generated from the fresh id
counter (spec section 4.2). -/
def mkCode (n : Nat) : Nat := n

/-- Modelled from the spec: the hash under which a one-time code is stored
(spec section 4.2). -/
def hashCode (c : Nat) : Nat := c + 5000011

/-- Modelled from the spec: the password has at least one decimal digit
(spec section 4.1). -/
def hasDigit (pw : String) : Bool := pw.toList.any Char.isDigit

/-- Modelled from the spec: the password has at least one uppercase letter
(spec section 4.1). -/
def hasUpper (pw : String) : Bool := pw.toList.any Char.isUpper

/-- Modelled from the spec: the password policy, minimum length 8 plus
character-class diversity. The test suites pin the observed contract, with
password456 rejected while password456A and Pass1234AA are accepted, which
forces the uppercase class on top of the digit class (spec sections 4.1
and 8, src/api-gateway/test/test_api_gateway_auth.py,
src/auth-service/test/test_auth_service.py). -/
def validatePassword (pw : String) : Bool :=
  decide (8 ≤ pw.length) && hasDigit pw && hasUpper pw

/-- Modelled from the spec: findByEmail on the credential store (spec 4.1). -/
def findByEmail (s : AuthState) (e : String) : Option User :=
  s.users.find? (fun u => u.email == e)

/-- Modelled from the spec: findById on the credential store (spec 4.1). -/
def findUserById (s : AuthState) (uid : Nat) : Option User :=
  s.users.find? (fun u => u.id == uid)

/-- Modelled from the spec: refresh-token lookup by stored hash (spec 4.4). -/
def findToken (s : AuthState) (h : Nat) : Option RefreshToken :=
  s.tokens.find? (fun t => t.tokenHash == h)

/-- Modelled from the spec: signup error taxonomy (spec section 4.1). -/
inductive SignupError
  | weakPassword
  | duplicateEmail
  | duplicateUsername
deriving DecidableEq

/-- Modelled from the spec: loginStart error taxonomy (spec section 4.3). -/
inductive LoginStartError
  | invalidCredentials
  | accountLocked
deriving DecidableEq

/-- Modelled from the spec: the polymorphic login outcome, direct tokens or a
second-factor challenge (spec sections 4.3 and 9). -/
inductive LoginStartOk
  | tokens (access : AccessToken) (refreshSecret : Nat)
  | secondFactor (pendingId : Nat) (userId : Nat) (method : TwoFA)
deriving DecidableEq

/-- Modelled from the spec: loginFinish error taxonomy (spec section 4.3). -/
inductive LoginFinishError
  | pendingExpired
  | codeInvalid
deriving DecidableEq

/-- Modelled from the spec: refresh error taxonomy (spec section 4.4). -/
inductive RefreshError
  | invalid
  | expired
  | revoked
  | reuseDetected
deriving DecidableEq

/-- Modelled from the spec: logout error taxonomy (spec section 4.4). -/
inductive LogoutError
  | invalid
deriving DecidableEq

/-- Modelled from the spec: authorization-guard error taxonomy (spec 4.5). -/
inductive GuardError
  | forbidden
  | notFound
deriving DecidableEq

/-- Modelled from the spec: one-time-code engine error taxonomy (spec 4.2). -/
inductive CodeError
  | notFound
  | alreadyConsumed
  | mismatch
deriving DecidableEq

/-- Modelled from the spec: access-token validation error taxonomy (spec 4.4). -/
inductive ValidateError
  | invalid
  | expired
deriving DecidableEq

/-- Modelled from the spec: HTTP status of a signup outcome (spec section 6). -/
def signupStatus : Except SignupError Nat → Nat
  | .ok _ => 201
  | .error .weakPassword => 400
  | .error .duplicateEmail => 409
  | .error .duplicateUsername => 409

/-- Modelled from the spec: HTTP status of a loginStart outcome (spec 6). -/
def loginStartStatus : Except LoginStartError LoginStartOk → Nat
  | .ok _ => 200
  | .error .invalidCredentials => 401
  | .error .accountLocked => 423

/-- Modelled from the spec: HTTP status of a loginFinish outcome (spec 6). -/
def loginFinishStatus : Except LoginFinishError (AccessToken × Nat) → Nat
  | .ok _ => 200
  | .error _ => 401

/-- Modelled from the spec: HTTP status of a refresh outcome (spec 6). -/
def refreshStatus : Except RefreshError (AccessToken × Nat) → Nat
  | .ok _ => 200
  | .error _ => 401

/-- Modelled from the spec: HTTP status of a logout outcome (spec 6). -/
def logoutStatus : Except LogoutError Unit → Nat
  | .ok _ => 200
  | .error _ => 401

/-- Modelled from the spec: HTTP status of a guarded mutation (spec 6). -/
def guardStatus : Except GuardError Unit → Nat
  | .ok _ => 200
  | .error .forbidden => 403
  | .error .notFound => 404

/-- Modelled from the spec: numeric rank of a role, used inside signatures. -/
def Role.rank : Role → Nat
  | .user => 0
  | .resident => 1
  | .admin => 2

/-- Modelled from the spec: deterministic signature of access-token claims under
a key (spec section 4.4). -/
def signClaims (key : Nat) (c : Claims) : Nat :=
  (key + 1) * 1000033 + c.userId * 7919 + c.role.rank * 131 + c.exp * 31

/-- Modelled from the spec: mint a signed access token (spec section 4.4). -/
def mkAccessToken (key : Nat) (c : Claims) : AccessToken :=
  { claims := c, sig := signClaims key c }

/-- Modelled from the spec: pure signature-plus-expiry validation; the function
receives no store, only the token, the key and the clock, so it is stateless
(spec section 4.4). -/
def validateAccess (key : Nat) (now : Nat) (t : AccessToken) : Except ValidateError Claims :=
  if t.sig == signClaims key t.claims then
    if now < t.claims.exp then .ok t.claims else .error .expired
  else .error .invalid

/-- Modelled from the spec tests: flip the low byte of a signature, as the
end-to-end test tampers a JWT by xor-ing one signature byte with 0xFF
(src/test/e2e/auth/test_auth_full.py, tamper_jwt). -/
def flipByte (sigVal : Nat) : Nat := sigVal ^^^ 255

/-- Modelled from the spec: mint a signed access token plus a fresh refresh-token
row that stores only the hash of the new secret; the secret is returned once
(spec section 4.4). -/
def issueTokenPair (s : AuthState) (u : User) : (AccessToken × Nat) × AuthState :=
  let secretVal := mkSecret s.nextId
  let tok : RefreshToken :=
    { id := s.nextId, userId := u.id, tokenHash := hashSecret secretVal,
      issuedAt := s.now, expiresAt := s.now + refreshTTL,
      revokedAt := none, replacedBy := none }
  let access := mkAccessToken signingKey { userId := u.id, role := u.role, exp := s.now + accessTTL }
  ((access, secretVal), { s with tokens := tok :: s.tokens, nextId := s.nextId + 1 })

/-- Modelled from the spec: mark every unconsumed code for the given user and
purpose consumed; a new request supersedes prior codes and verification
consumes in the same update (spec sections 3 and 4.2). -/
def consumeCodes (codes : List OneTimeCode) (now uid : Nat) (purpose : CodePurpose) : List OneTimeCode :=
  codes.map (fun c =>
    if c.userId == uid && decide (c.purpose = purpose) && decide (c.consumedAt = none)
    then { c with consumedAt := some now } else c)

/-- Modelled from the spec: one-time-code verification; compares hashes and
treats an expired code identically to a missing one for external callers
(spec section 4.2). -/
def verifyCode (codes : List OneTimeCode) (now uid : Nat) (purpose : CodePurpose) (code : Nat) :
    Except CodeError OneTimeCode :=
  match codes.find? (fun c => c.userId == uid && decide (c.purpose = purpose)) with
  | none => .error .notFound
  | some c =>
    if c.expiresAt ≤ now then .error .notFound
    else if c.consumedAt ≠ none then .error .alreadyConsumed
    else if c.codeHash ≠ hashCode code then .error .mismatch
    else .ok c

/-- Modelled from the spec: createUser; weak passwords are rejected before any
hashing, then duplicate email and duplicate username (spec sections 4.1
and 6). -/
def signup (s : AuthState) (un em pw : String) : Except SignupError Nat × AuthState :=
  if validatePassword pw = false then (.error .weakPassword, s)
  else if (findByEmail s em).isSome then (.error .duplicateEmail, s)
  else if s.users.any (fun u => u.username == un) then (.error .duplicateUsername, s)
  else
    let u : User :=
      { id := s.nextId, email := em, username := un, passwordHash := hashPassword pw,
        role := .user, emailVerified := false, locked := false, twofa := .off }
    (.ok s.nextId, { s with users := u :: s.users, nextId := s.nextId + 1 })

/-- Modelled from the spec: two-step login, step one. Unknown email and wrong
password yield the same InvalidCredentials; the locked flag is checked before
the password; without a second factor tokens are issued directly; with email
2FA a pending login is created and a login code issued, superseding prior
codes (spec section 4.3). -/
def loginStart (s : AuthState) (e pw : String) : Except LoginStartError LoginStartOk × AuthState :=
  match findByEmail s e with
  | none => (.error .invalidCredentials, s)
  | some u =>
    if u.locked then (.error .accountLocked, s)
    else if u.passwordHash ≠ hashPassword pw then (.error .invalidCredentials, s)
    else
      match u.twofa with
      | .off =>
        let r := issueTokenPair s u
        (.ok (.tokens r.1.1 r.1.2), r.2)
      | .email =>
        let pend : PendingLogin :=
          { pendingId := s.nextId, userId := u.id, expiresAt := s.now + pendingTTL }
        let otc : OneTimeCode :=
          { purpose := .twofaLogin, userId := u.id, codeHash := hashCode (mkCode s.nextId),
            expiresAt := s.now + codeTTL, consumedAt := none }
        (.ok (.secondFactor s.nextId u.id .email),
          { s with pendings := pend :: s.pendings,
                   codes := otc :: consumeCodes s.codes s.now u.id .twofaLogin,
                   nextId := s.nextId + 1 })

/-- Modelled from the spec: two-step login, step two; consumes the pending login
and the associated code in one state update and issues a token pair on
success (spec section 4.3). -/
def loginFinish (s : AuthState) (uid : Nat) (code : Nat) :
    Except LoginFinishError (AccessToken × Nat) × AuthState :=
  match s.pendings.find? (fun p => p.userId == uid) with
  | none => (.error .pendingExpired, s)
  | some p =>
    if p.expiresAt ≤ s.now then (.error .pendingExpired, s)
    else
      match verifyCode s.codes s.now uid .twofaLogin code with
      | .error _ => (.error .codeInvalid, s)
      | .ok _ =>
        match findUserById s uid with
        | none => (.error .codeInvalid, s)
        | some u =>
          let s1 : AuthState :=
            { s with pendings := s.pendings.filter (fun q => !(q.pendingId == p.pendingId)),
                     codes := consumeCodes s.codes s.now uid .twofaLogin }
          let r := issueTokenPair s1 u
          (.ok r.1, r.2)

/-- Modelled from the spec: ids of the rotation chain from a given token onward,
following replacedBy pointers, with fuel bounding the walk (spec 4.4). -/
def chainIdsAux (tokens : List RefreshToken) : Nat → Nat → List Nat
  | 0, _ => []
  | fuel + 1, i =>
    i :: (match tokens.find? (fun t => t.id == i) with
      | some t =>
        match t.replacedBy with
        | some j => chainIdsAux tokens fuel j
        | none => []
      | none => [])

/-- Modelled from the spec: the rotation chain from a token onward (spec 4.4). -/
def chainIds (tokens : List RefreshToken) (start : Nat) : List Nat :=
  chainIdsAux tokens (tokens.length + 1) start

/-- Modelled from the spec: revoke every token whose id is in the list (4.4). -/
def revokeIds (s : AuthState) (ids : List Nat) : AuthState :=
  { s with tokens := s.tokens.map (fun t =>
      if ids.contains t.id then { t with revokedAt := some s.now } else t) }

/-- Modelled from the spec: refresh-token rotation (spec section 4.4). Lookup by
hash fails Invalid when absent and Expired past expiresAt. A token that has
already been superseded, replacedBy set, is a reuse: the whole chain from it
onward is revoked and the call fails ReuseDetected; since rotation also
revokes the old token, the reuse check comes before the plain Revoked check,
matching the testable property of spec section 8. A token revoked without a
successor, by logout, fails Revoked. On success the old token is revoked and
linked to its freshly minted successor in the same state update. -/
def refresh (s : AuthState) (secretVal : Nat) : Except RefreshError (AccessToken × Nat) × AuthState :=
  match findToken s (hashSecret secretVal) with
  | none => (.error .invalid, s)
  | some t =>
    if t.expiresAt ≤ s.now then (.error .expired, s)
    else
      match t.replacedBy with
      | some _ => (.error .reuseDetected, revokeIds s (chainIds s.tokens t.id))
      | none =>
        if t.revokedAt ≠ none then (.error .revoked, s)
        else
          match findUserById s t.userId with
          | none => (.error .invalid, s)
          | some u =>
            let secretNew := mkSecret s.nextId
            let succTok : RefreshToken :=
              { id := s.nextId, userId := t.userId, tokenHash := hashSecret secretNew,
                issuedAt := s.now, expiresAt := s.now + refreshTTL,
                revokedAt := none, replacedBy := none }
            let access := mkAccessToken signingKey { userId := u.id, role := u.role, exp := s.now + accessTTL }
            let olds := s.tokens.map (fun t0 =>
              if t0.id == t.id
              then { t0 with revokedAt := some s.now, replacedBy := some s.nextId }
              else t0)
            (.ok (access, secretNew), { s with tokens := succTok :: olds, nextId := s.nextId + 1 })

/-- Modelled from the spec: logout revokes the presented token immediately;
Invalid only when the hash is unknown (spec section 4.4). -/
def logout (s : AuthState) (secretVal : Nat) : Except LogoutError Unit × AuthState :=
  match findToken s (hashSecret secretVal) with
  | none => (.error .invalid, s)
  | some t =>
    (.ok (), { s with tokens := s.tokens.map (fun t0 =>
      if t0.id == t.id then { t0 with revokedAt := some s.now } else t0) })

/-- Modelled from the spec: the role-change authorization rule (spec 4.5). -/
def canSetRole : Role → Role → Role → Bool
  | .admin, _, _ => true
  | .resident, tcur, rnew =>
    (decide (rnew = Role.resident) || decide (rnew = Role.user)) &&
      (decide (tcur = Role.user) || decide (tcur = Role.resident))
  | .user, _, _ => false

/-- Modelled from the spec: setRole guarded by canSetRole; NotFound for a
missing target, Forbidden for a disallowed change (spec section 4.5). -/
def setRole (s : AuthState) (caller : Role) (targetId : Nat) (rnew : Role) :
    Except GuardError Unit × AuthState :=
  match findUserById s targetId with
  | none => (.error .notFound, s)
  | some t =>
    if canSetRole caller t.role rnew then
      (.ok (), { s with users := s.users.map (fun u =>
        if u.id == targetId then { u with role := rnew } else u) })
    else (.error .forbidden, s)

/-- Modelled from the spec: lockout is admin-only; every other caller receives
Forbidden (spec section 4.5). -/
def setLocked (s : AuthState) (caller : Role) (targetId : Nat) (lock : Bool) :
    Except GuardError Unit × AuthState :=
  if caller ≠ Role.admin then (.error .forbidden, s)
  else
    match findUserById s targetId with
    | none => (.error .notFound, s)
    | some _ =>
      (.ok (), { s with users := s.users.map (fun u =>
        if u.id == targetId then { u with locked := lock } else u) })

/-- Modelled from the spec: time passes, used only for expiry (spec 3). -/
def tick (s : AuthState) (dt : Nat) : AuthState := { s with now := s.now + dt }

/-- Modelled from the spec: the boot state, seeding the admin account the
end-to-end tests rely on, email admin at example.com with password admin
(spec section 9, src/test/e2e/auth/test_auth_full.py). -/
def initState : AuthState :=
  { users := [{ id := 0, email := "admin@example.com", username := "admin",
                passwordHash := hashPassword "admin", role := .admin,
                emailVerified := true, locked := false, twofa := .off }],
    tokens := [], pendings := [], codes := [], nextId := 1, now := 0 }

/-- Demo one-time code row for the code-engine witnesses. -/
def demoCode : OneTimeCode :=
  { purpose := .twofaLogin, userId := 5, codeHash := hashCode 9,
    expiresAt := 1, consumedAt := none }

/-- Modelled from the spec: one observable service request or a clock tick. -/
inductive Step : AuthState → AuthState → Prop
  | ofSignup (s : AuthState) (un em pw : String) : Step s (signup s un em pw).2
  | ofLoginStart (s : AuthState) (e pw : String) : Step s (loginStart s e pw).2
  | ofLoginFinish (s : AuthState) (uid code : Nat) : Step s (loginFinish s uid code).2
  | ofRefresh (s : AuthState) (secretVal : Nat) : Step s (refresh s secretVal).2
  | ofLogout (s : AuthState) (secretVal : Nat) : Step s (logout s secretVal).2
  | ofSetRole (s : AuthState) (caller : Role) (targetId : Nat) (rnew : Role) :
      Step s (setRole s caller targetId rnew).2
  | ofSetLocked (s : AuthState) (caller : Role) (targetId : Nat) (lock : Bool) :
      Step s (setLocked s caller targetId lock).2
  | ofTick (s : AuthState) (dt : Nat) : Step s (tick s dt)

/-- Reachable service states: everything producible from boot by requests. -/
inductive Reachable : AuthState → Prop
  | init : Reachable initState
  | step {s s' : AuthState} : Reachable s → Step s s' → Reachable s'

/-- A refresh token is live when unrevoked and unexpired. -/
def live (s : AuthState) (t : RefreshToken) : Prop :=
  t.revokedAt = none ∧ s.now < t.expiresAt

/-- Successor reachability between stored tokens along replacedBy links. -/
inductive SuccStar (tokens : List RefreshToken) : RefreshToken → RefreshToken → Prop
  | refl (t : RefreshToken) : SuccStar tokens t t
  | step {t u v : RefreshToken} : t ∈ tokens → t.replacedBy = some u.id → u ∈ tokens →
      SuccStar tokens u v → SuccStar tokens t v

/-- Rotation invariant of the token store: a superseded token is revoked. -/
def TokRevInv (tokens : List RefreshToken) : Prop :=
  ∀ t ∈ tokens, t.replacedBy ≠ none → t.revokedAt ≠ none

/-- Demo state after the seeded admin logs in, one live refresh token, id 1. -/
def st1 : AuthState := (loginStart initState "admin@example.com" "admin").2

/-- Demo state after that refresh token is rotated once, token 1 superseded by
token 2. -/
def st2 : AuthState := (refresh st1 1).2

/-- The superseded token of st2. -/
def told : RefreshToken :=
  { id := 1, userId := 0, tokenHash := hashSecret 1, issuedAt := 0,
    expiresAt := refreshTTL, revokedAt := some 0, replacedBy := some 2 }

/-- The live successor token of st2. -/
def tnew : RefreshToken :=
  { id := 2, userId := 0, tokenHash := hashSecret 2, issuedAt := 0,
    expiresAt := refreshTTL, revokedAt := none, replacedBy := none }

/-- The seeded admin user record. -/
def uAdmin : User :=
  { id := 0, email := "admin@example.com", username := "admin",
    passwordHash := hashPassword "admin", role := .admin,
    emailVerified := true, locked := false, twofa := .off }

/-- The live token of st1, before rotation. -/
def tok1live : RefreshToken :=
  { id := 1, userId := 0, tokenHash := hashSecret 1, issuedAt := 0,
    expiresAt := refreshTTL, revokedAt := none, replacedBy := none }

/-- Demo user with email 2FA enabled. -/
def u2fa : User :=
  { id := 1, email := "t2fa@example.com", username := "t2fa",
    passwordHash := hashPassword "password789A", role := .user,
    emailVerified := true, locked := false, twofa := .email }

/-- Demo plain user without a second factor. -/
def uPlain : User :=
  { id := 2, email := "plain@example.com", username := "plain",
    passwordHash := hashPassword "Pass1234AA", role := .user,
    emailVerified := true, locked := false, twofa := .off }

/-- Demo state for guard and login witnesses: seeded admin, a 2FA user and a
plain user. -/
def stGuard : AuthState :=
  { users := [uPlain, u2fa,
      { id := 0, email := "admin@example.com", username := "admin",
        passwordHash := hashPassword "admin", role := .admin,
        emailVerified := true, locked := false, twofa := .off }],
    tokens := [], pendings := [], codes := [], nextId := 3, now := 0 }


theorem find?_map_eq {α : Type} (f : α → α) (p : α → Bool)
    (hp : ∀ x, p (f x) = p x) (l : List α) :
    (l.map f).find? p = (l.find? p).map f := by
  rw [List.find?_map]
  have hcomp : p ∘ f = p := funext hp
  rw [hcomp]

theorem tokRevInv_nil : TokRevInv [] := by
  intro t ht
  exact absurd ht (List.not_mem_nil t)

theorem tokRevInv_cons {t : RefreshToken} (hrep : t.replacedBy = none)
    {toks : List RefreshToken} (h : TokRevInv toks) : TokRevInv (t :: toks) := by
  intro w hw
  rcases List.mem_cons.mp hw with rfl | hw'
  · intro hr
    exact absurd hrep hr
  · exact h w hw'

theorem tokRevInv_map {f : RefreshToken → RefreshToken}
    (hf : ∀ t, (t.replacedBy ≠ none → t.revokedAt ≠ none) →
      ((f t).replacedBy ≠ none → (f t).revokedAt ≠ none))
    {toks : List RefreshToken} (h : TokRevInv toks) : TokRevInv (toks.map f) := by
  intro w hw
  rcases List.mem_map.mp hw with ⟨t0, ht0, rfl⟩
  exact hf t0 (h t0 ht0)

theorem signup_tokens_eq (s : AuthState) (un em pw : String) :
    (signup s un em pw).2.tokens = s.tokens := by
  unfold signup
  repeat' split
  all_goals rfl

theorem setRole_tokens_eq (s : AuthState) (caller : Role) (targetId : Nat) (rnew : Role) :
    (setRole s caller targetId rnew).2.tokens = s.tokens := by
  unfold setRole
  repeat' split
  all_goals rfl

theorem setLocked_tokens_eq (s : AuthState) (caller : Role) (targetId : Nat) (lock : Bool) :
    (setLocked s caller targetId lock).2.tokens = s.tokens := by
  unfold setLocked
  repeat' split
  all_goals rfl

theorem tick_tokens_eq (s : AuthState) (dt : Nat) : (tick s dt).tokens = s.tokens := rfl

theorem issueTokenPair_tokens (s : AuthState) (u : User) :
    (issueTokenPair s u).2.tokens =
      { id := s.nextId, userId := u.id, tokenHash := hashSecret (mkSecret s.nextId),
        issuedAt := s.now, expiresAt := s.now + refreshTTL,
        revokedAt := none, replacedBy := none } :: s.tokens := rfl

theorem loginStart_tokRevInv (s : AuthState) (e pw : String) (h : TokRevInv s.tokens) :
    TokRevInv (loginStart s e pw).2.tokens := by
  unfold loginStart
  cases hfe : findByEmail s e with
  | none => exact h
  | some u =>
    simp only
    split
    · exact h
    · split
      · exact h
      · cases hm : u.twofa with
        | off =>
          simp only [issueTokenPair]
          exact tokRevInv_cons rfl h
        | email => exact h


theorem loginFinish_tokRevInv (s : AuthState) (uid code : Nat) (h : TokRevInv s.tokens) :
    TokRevInv (loginFinish s uid code).2.tokens := by
  unfold loginFinish
  split
  · exact h
  · split
    · exact h
    · split
      · exact h
      · split
        · exact h
        · refine tokRevInv_cons ?_ h
          rfl

theorem logout_tokRevInv (s : AuthState) (secretVal : Nat) (h : TokRevInv s.tokens) :
    TokRevInv (logout s secretVal).2.tokens := by
  unfold logout
  split
  · exact h
  next t hf =>
    refine tokRevInv_map ?_ h
    intro t0 h0
    by_cases hid : (t0.id == t.id) = true
    · rw [if_pos hid]
      intro _
      simp
    · rw [if_neg (by simp [hid])]
      exact h0

theorem revokeIds_tokRevInv (s : AuthState) (ids : List Nat) (h : TokRevInv s.tokens) :
    TokRevInv (revokeIds s ids).tokens := by
  unfold revokeIds
  refine tokRevInv_map ?_ h
  intro t0 h0
  by_cases hid : ids.contains t0.id = true
  · rw [if_pos hid]
    intro _
    simp
  · rw [if_neg (by simpa using hid)]
    exact h0

theorem refresh_tokRevInv (s : AuthState) (secretVal : Nat) (h : TokRevInv s.tokens) :
    TokRevInv (refresh s secretVal).2.tokens := by
  unfold refresh
  split
  · exact h
  next t hf =>
    split
    · exact h
    · split
      · exact revokeIds_tokRevInv s (chainIds s.tokens t.id) h
      · split
        · exact h
        · split
          · exact h
          · refine tokRevInv_cons ?_ ?_
            · rfl
            · refine tokRevInv_map ?_ h
              intro t0 h0
              by_cases hid : (t0.id == t.id) = true
              · rw [if_pos hid]
                intro _
                simp
              · rw [if_neg (by simp [hid])]
                exact h0

theorem step_tokRevInv {s s' : AuthState} (hstep : Step s s') (h : TokRevInv s.tokens) :
    TokRevInv s'.tokens := by
  cases hstep with
  | ofSignup un em pw => rw [signup_tokens_eq]; exact h
  | ofLoginStart e pw => exact loginStart_tokRevInv s e pw h
  | ofLoginFinish uid code => exact loginFinish_tokRevInv s uid code h
  | ofRefresh secretVal => exact refresh_tokRevInv s secretVal h
  | ofLogout secretVal => exact logout_tokRevInv s secretVal h
  | ofSetRole caller targetId rnew => rw [setRole_tokens_eq]; exact h
  | ofSetLocked caller targetId lock => rw [setLocked_tokens_eq]; exact h
  | ofTick dt => rw [tick_tokens_eq]; exact h

theorem reachable_tokRevInv {s : AuthState} (h : Reachable s) : TokRevInv s.tokens := by
  induction h with
  | init =>
    intro t ht
    simp [initState] at ht
  | step hr hs ih => exact step_tokRevInv hs ih


theorem refresh_success_eq {s : AuthState} {v : Nat} {t : RefreshToken} {u : User}
    (hfind : findToken s (hashSecret v) = some t)
    (hexp : s.now < t.expiresAt) (hrep : t.replacedBy = none)
    (hrev : t.revokedAt = none) (hu : findUserById s t.userId = some u) :
    refresh s v =
      (.ok (mkAccessToken signingKey { userId := u.id, role := u.role, exp := s.now + accessTTL },
            mkSecret s.nextId),
       { s with
          tokens :=
            { id := s.nextId, userId := t.userId, tokenHash := hashSecret (mkSecret s.nextId),
              issuedAt := s.now, expiresAt := s.now + refreshTTL,
              revokedAt := none, replacedBy := none } ::
            s.tokens.map (fun t0 =>
              if t0.id == t.id
              then { t0 with revokedAt := some s.now, replacedBy := some s.nextId }
              else t0),
          nextId := s.nextId + 1 }) := by
  simp only [refresh, hfind]
  rw [if_neg (Nat.not_le.mpr hexp)]
  simp only [hrep, hu]
  rw [if_neg (by simp [hrev])]

theorem refresh_reuse_eq {s : AuthState} {v : Nat} {t : RefreshToken} {j : Nat}
    (hfind : findToken s (hashSecret v) = some t)
    (hexp : s.now < t.expiresAt) (hrep : t.replacedBy = some j) :
    refresh s v = (.error .reuseDetected, revokeIds s (chainIds s.tokens t.id)) := by
  simp only [refresh, hfind]
  rw [if_neg (Nat.not_le.mpr hexp)]
  simp only [hrep]

theorem refresh_revoked_eq {s : AuthState} {v : Nat} {t : RefreshToken} {n : Nat}
    (hfind : findToken s (hashSecret v) = some t)
    (hexp : s.now < t.expiresAt) (hrep : t.replacedBy = none)
    (hrev : t.revokedAt = some n) :
    refresh s v = (.error .revoked, s) := by
  simp only [refresh, hfind]
  rw [if_neg (Nat.not_le.mpr hexp)]
  simp only [hrep]
  rw [if_pos (by simp [hrev])]

theorem refresh_error_of_revoked {s : AuthState} {v : Nat} {t : RefreshToken}
    (hfind : findToken s (hashSecret v) = some t)
    (hrev : t.revokedAt ≠ none) :
    ∃ e, (refresh s v).1 = Except.error e := by
  simp only [refresh, hfind]
  by_cases hexp : t.expiresAt ≤ s.now
  · rw [if_pos hexp]
    exact ⟨.expired, rfl⟩
  · rw [if_neg hexp]
    cases hrb : t.replacedBy with
    | some j => exact ⟨.reuseDetected, rfl⟩
    | none =>
      rw [if_pos hrev]
      exact ⟨.revoked, rfl⟩

theorem logout_ok_eq {s : AuthState} {v : Nat} {t : RefreshToken}
    (hfind : findToken s (hashSecret v) = some t) :
    logout s v =
      (.ok (), { s with tokens := s.tokens.map (fun t0 =>
        if t0.id == t.id then { t0 with revokedAt := some s.now } else t0) }) := by
  simp only [logout, hfind]

theorem findToken_map_same_hash {s : AuthState} {v : Nat} {t : RefreshToken}
    (f : RefreshToken → RefreshToken) (hpres : ∀ x, (f x).tokenHash = x.tokenHash)
    (hfind : findToken s (hashSecret v) = some t) :
    ({ s with tokens := s.tokens.map f } : AuthState).tokens.find?
        (fun t0 => t0.tokenHash == hashSecret v) = some (f t) := by
  have hp : ∀ x, ((f x).tokenHash == hashSecret v) = (x.tokenHash == hashSecret v) := by
    intro x
    rw [hpres x]
  have := find?_map_eq f (fun t0 => t0.tokenHash == hashSecret v) hp s.tokens
  simp only [this]
  unfold findToken at hfind
  rw [hfind]
  rfl


theorem hashSecret_inj {a b : Nat} (h : hashSecret a = hashSecret b) : a = b := by
  unfold hashSecret at h
  omega

theorem revokeIds_revokes (s : AuthState) (ids : List Nat) :
    ∀ w ∈ (revokeIds s ids).tokens, w.id ∈ ids → w.revokedAt ≠ none := by
  intro w hw
  unfold revokeIds at hw
  rcases List.mem_map.mp hw with ⟨x, hx, rfl⟩
  intro hwid
  by_cases hc : ids.contains x.id = true
  · rw [if_pos hc]
    simp
  · rw [if_neg (by simpa using hc)] at hwid
    exact absurd (List.elem_iff.mpr hwid) hc

theorem find?_tokens_map {toks : List RefreshToken} {h : Nat} {t : RefreshToken}
    (f : RefreshToken → RefreshToken) (hpres : ∀ x, (f x).tokenHash = x.tokenHash)
    (hfind : toks.find? (fun t0 => t0.tokenHash == h) = some t) :
    (toks.map f).find? (fun t0 => t0.tokenHash == h) = some (f t) := by
  have hp : ∀ x, ((f x).tokenHash == h) = (x.tokenHash == h) := by
    intro x
    rw [hpres x]
  rw [find?_map_eq f (fun t0 => t0.tokenHash == h) hp toks, hfind]
  rfl

/-- Claim C1: refresh-token rotation and reuse detection. In every reachable
state, at most one token of any rotation chain is live, where a chain relates
two stored tokens when one is an iterated successor of the other. Moreover,
refreshing twice with the same secret: the first call succeeds with 200 and a
new pair, revoking the old token and linking its successor in the same state
update; the second call with the original secret fails ReuseDetected with 401
and revokes the entire successor chain. -/
theorem c1_refresh_rotation_and_reuse :
    (∀ s, Reachable s → ∀ t t', t ∈ s.tokens → t' ∈ s.tokens → t ≠ t' →
      (SuccStar s.tokens t t' ∨ SuccStar s.tokens t' t) → ¬(live s t ∧ live s t')) ∧
    (∀ s v t u, findToken s (hashSecret v) = some t →
      s.now < t.expiresAt → t.replacedBy = none → t.revokedAt = none →
      findUserById s t.userId = some u → v ≠ mkSecret s.nextId →
      ∃ a s', refresh s v = (.ok (a, mkSecret s.nextId), s') ∧
        refreshStatus (refresh s v).1 = 200 ∧
        findToken s' (hashSecret v) =
          some { t with revokedAt := some s.now, replacedBy := some s.nextId } ∧
        (refresh s' v).1 = .error .reuseDetected ∧
        refreshStatus (refresh s' v).1 = 401 ∧
        (∀ w ∈ (refresh s' v).2.tokens,
          w.id ∈ chainIds s'.tokens t.id → w.revokedAt ≠ none)) := by
  constructor
  · intro s hr t t' ht ht' hne hcomp hlive
    obtain ⟨hl, hl'⟩ := hlive
    unfold live at hl hl'
    have hinv := reachable_tokRevInv hr
    rcases hcomp with hss | hss
    · cases hss with
      | refl _ => exact hne rfl
      | step hmem hrepl humem htail =>
        exact hinv t ht (by rw [hrepl]; simp) hl.1
    · cases hss with
      | refl _ => exact hne rfl
      | step hmem hrepl humem htail =>
        exact hinv t' ht' (by rw [hrepl]; simp) hl'.1
  · intro s v t u hfind hexp hrep hrev hu hfresh
    have hs1 := refresh_success_eq hfind hexp hrep hrev hu
    have hbeqself : (t.id == t.id) = true := by simp
    have hfindL : s.tokens.find? (fun t0 => t0.tokenHash == hashSecret v) = some t := hfind
    have hfind2 : findToken (refresh s v).2 (hashSecret v) =
        some { t with revokedAt := some s.now, replacedBy := some s.nextId } := by
      rw [hs1]
      unfold findToken
      dsimp only
      rw [List.find?_cons_of_neg]
      · rw [find?_tokens_map _ (by intro x; split <;> rfl) hfindL]
        rw [if_pos hbeqself]
      · intro hbeq
        have hh : hashSecret (mkSecret s.nextId) = hashSecret v := by simpa using hbeq
        exact hfresh (hashSecret_inj hh).symm
    have hexp2 : (refresh s v).2.now <
        ({ t with revokedAt := some s.now, replacedBy := some s.nextId } : RefreshToken).expiresAt := by
      rw [hs1]
      exact hexp
    refine ⟨mkAccessToken signingKey { userId := u.id, role := u.role, exp := s.now + accessTTL },
      (refresh s v).2, ?_, ?_, hfind2, ?_, ?_, ?_⟩
    · rw [hs1]
    · rw [hs1]
      rfl
    · rw [refresh_reuse_eq hfind2 hexp2 rfl]
    · rw [refresh_reuse_eq hfind2 hexp2 rfl]
      rfl
    · rw [refresh_reuse_eq hfind2 hexp2 rfl]
      exact revokeIds_revokes _ _


theorem reach_st2 : Reachable st2 :=
  Reachable.step
    (Reachable.step Reachable.init (Step.ofLoginStart initState "admin@example.com" "admin"))
    (Step.ofRefresh st1 1)

/-- Witness for claim C1 at a concrete reachable state: after the seeded admin
logs in and rotates once, the superseded token and its live successor are
never both live, and a second refresh with the original secret is rejected as
reuse. -/
theorem c1_refresh_rotation_and_reuse_witness :
    (¬(live st2 told ∧ live st2 tnew)) ∧
    (refresh st2 1).1 = Except.error RefreshError.reuseDetected := by
  constructor
  · have hlist : st2.tokens = [tnew, told] := by decide
    have htold : told ∈ st2.tokens := by rw [hlist]; simp
    have htnew : tnew ∈ st2.tokens := by rw [hlist]; simp
    have hchain : SuccStar st2.tokens told tnew :=
      SuccStar.step htold (by decide) htnew (SuccStar.refl tnew)
    exact c1_refresh_rotation_and_reuse.1 st2 reach_st2 told tnew htold htnew
      (by decide) (Or.inl hchain)
  · obtain ⟨a, s', heq, h200, hf2, hreuse, h401, hchn⟩ :=
      c1_refresh_rotation_and_reuse.2 st1 1 tok1live uAdmin (by decide) (by decide)
        (by decide) (by decide) (by decide) (by decide)
    have hs' : s' = st2 := by
      have : (refresh st1 1).2 = s' := by rw [heq]
      rw [← this]
      rfl
    rw [hs'] at hreuse
    exact hreuse


theorem findToken_after_logout {s : AuthState} {v : Nat} {t : RefreshToken}
    (hfind : findToken s (hashSecret v) = some t) :
    findToken (logout s v).2 (hashSecret v) = some { t with revokedAt := some s.now } := by
  have hfindL : s.tokens.find? (fun t0 => t0.tokenHash == hashSecret v) = some t := hfind
  rw [logout_ok_eq hfind]
  unfold findToken
  dsimp only
  rw [find?_tokens_map _ (by intro x; split <;> rfl) hfindL]
  rw [if_pos (by simp : (t.id == t.id) = true)]

/-- Claim C2: logout then refresh with the same token always fails. A found
token is revoked by logout with 200, after which a refresh presenting the same
secret can never succeed; when the token is unexpired and not superseded the
failure is precisely Revoked with 401. -/
theorem c2_logout_then_refresh_fails :
    ∀ s v t, findToken s (hashSecret v) = some t →
      ∃ s', logout s v = (.ok (), s') ∧ logoutStatus (logout s v).1 = 200 ∧
        findToken s' (hashSecret v) = some { t with revokedAt := some s.now } ∧
        (∀ a r s'', refresh s' v ≠ (.ok (a, r), s'')) ∧
        (s.now < t.expiresAt → t.replacedBy = none →
          (refresh s' v).1 = .error .revoked ∧
          refreshStatus (refresh s' v).1 = 401) := by
  intro s v t hfind
  have hlog := logout_ok_eq hfind
  have hfind2 := findToken_after_logout hfind
  refine ⟨(logout s v).2, ?_, ?_, hfind2, ?_, ?_⟩
  · rw [hlog]
  · rw [hlog]
    rfl
  · intro a r s'' heq
    obtain ⟨e, he⟩ := refresh_error_of_revoked hfind2 (by simp)
    rw [heq] at he
    exact Except.noConfusion he
  · intro hexp hrep
    have hexp2 : (logout s v).2.now <
        ({ t with revokedAt := some s.now } : RefreshToken).expiresAt := by
      rw [hlog]
      exact hexp
    have hrevd := refresh_revoked_eq hfind2 hexp2 hrep rfl
    constructor
    · rw [hrevd]
    · rw [hrevd]
      rfl

/-- Witness for claim C2 at a concrete state: the admin's live refresh token is
logged out with ok, and refreshing it afterwards fails Revoked. -/
theorem c2_logout_then_refresh_fails_witness :
    (logout st1 1).1 = Except.ok () ∧
    (refresh (logout st1 1).2 1).1 = Except.error RefreshError.revoked := by
  obtain ⟨s', h1, h200, hf2, hnever, h5⟩ :=
    c2_logout_then_refresh_fails st1 1 tok1live (by decide)
  obtain ⟨hrev, h401⟩ := h5 (by decide) (by decide)
  have hs' : (logout st1 1).2 = s' := by rw [h1]
  constructor
  · rw [h1]
  · rw [hs']
    exact hrev

/-- Claim C9: logout presented with an already superseded refresh token still
returns ok with 200 rather than Invalid, even though refresh with that same
superseded token fails with 401 as detected reuse. -/
theorem c9_logout_superseded_ok :
    ∀ s v t j, findToken s (hashSecret v) = some t → t.replacedBy = some j →
      s.now < t.expiresAt →
      ∃ s', logout s v = (.ok (), s') ∧ logoutStatus (logout s v).1 = 200 ∧
        (refresh s' v).1 = .error .reuseDetected ∧
        refreshStatus (refresh s' v).1 = 401 := by
  intro s v t j hfind hrep hexp
  have hlog := logout_ok_eq hfind
  have hfind2 := findToken_after_logout hfind
  have hexp2 : (logout s v).2.now <
      ({ t with revokedAt := some s.now } : RefreshToken).expiresAt := by
    rw [hlog]
    exact hexp
  have hreuse := refresh_reuse_eq hfind2 hexp2 hrep
  refine ⟨(logout s v).2, ?_, ?_, ?_, ?_⟩
  · rw [hlog]
  · rw [hlog]
    rfl
  · rw [hreuse]
  · rw [hreuse]
    rfl

/-- Witness for claim C9 at a concrete state: in st2 token 1 is superseded by
token 2; logout with its secret still returns ok and a refresh with it is
rejected as reuse. -/
theorem c9_logout_superseded_ok_witness :
    (logout st2 1).1 = Except.ok () ∧
    (refresh (logout st2 1).2 1).1 = Except.error RefreshError.reuseDetected := by
  obtain ⟨s', h1, h200, hreuse, h401⟩ :=
    c9_logout_superseded_ok st2 1 told 2 (by decide) (by decide) (by decide)
  have hs' : (logout st2 1).2 = s' := by rw [h1]
  constructor
  · rw [h1]
  · rw [hs']
    exact hreuse


theorem find?_users_map {us : List User} {e : String} {u : User}
    (f : User → User) (hpres : ∀ x, (f x).email = x.email)
    (hfind : us.find? (fun x => x.email == e) = some u) :
    (us.map f).find? (fun x => x.email == e) = some (f u) := by
  have hp : ∀ x, ((f x).email == e) = (x.email == e) := by
    intro x
    rw [hpres x]
  rw [find?_map_eq f (fun x => x.email == e) hp us, hfind]
  rfl

theorem find?_usersId_map {us : List User} {tid : Nat} {u : User}
    (f : User → User) (hpres : ∀ x, (f x).id = x.id)
    (hfind : us.find? (fun x => x.id == tid) = some u) :
    (us.map f).find? (fun x => x.id == tid) = some (f u) := by
  have hp : ∀ x, ((f x).id == tid) = (x.id == tid) := by
    intro x
    rw [hpres x]
  rw [find?_map_eq f (fun x => x.id == tid) hp us, hfind]
  rfl

theorem loginStart_unknown_eq {s : AuthState} {e : String} (pw : String)
    (hfind : findByEmail s e = none) :
    loginStart s e pw = (.error .invalidCredentials, s) := by
  simp only [loginStart, hfind]

theorem loginStart_locked_eq {s : AuthState} {e : String} (pw : String) {u : User}
    (hfind : findByEmail s e = some u) (hl : u.locked = true) :
    loginStart s e pw = (.error .accountLocked, s) := by
  simp only [loginStart, hfind]
  rw [if_pos hl]

theorem loginStart_wrongpw_eq {s : AuthState} {e pw : String} {u : User}
    (hfind : findByEmail s e = some u) (hl : u.locked = false)
    (hpw : u.passwordHash ≠ hashPassword pw) :
    loginStart s e pw = (.error .invalidCredentials, s) := by
  simp only [loginStart, hfind]
  rw [if_neg (by simp [hl])]
  rw [if_pos hpw]

theorem loginStart_nofa_eq {s : AuthState} {e pw : String} {u : User}
    (hfind : findByEmail s e = some u) (hl : u.locked = false)
    (hpw : u.passwordHash = hashPassword pw) (h2 : u.twofa = TwoFA.off) :
    loginStart s e pw =
      (.ok (.tokens
          (mkAccessToken signingKey { userId := u.id, role := u.role, exp := s.now + accessTTL })
          (mkSecret s.nextId)),
       (issueTokenPair s u).2) := by
  simp only [loginStart, hfind]
  rw [if_neg (by simp [hl])]
  rw [if_neg (by simp [hpw])]
  simp only [h2]
  rfl

theorem setLocked_ok_eq {s : AuthState} {tid : Nat} {w : User} (lock : Bool)
    (hfind : findUserById s tid = some w) :
    setLocked s Role.admin tid lock =
      (.ok (), { s with users := s.users.map (fun x =>
        if x.id == tid then { x with locked := lock } else x) }) := by
  unfold setLocked
  rw [if_neg (by simp)]
  simp only [hfind]

/-- Claim C3: lockout. setLocked succeeds with 200 only for an admin caller and
fails Forbidden 403 for every other caller; once a user is locked, every
loginStart for that user returns AccountLocked 423 whatever the password,
because the locked flag is checked before the password; after an admin
unlocks, login with the same credentials succeeds again. -/
theorem c3_lockout :
    (∀ s caller targetId lock, caller ≠ Role.admin →
      (setLocked s caller targetId lock).1 = .error .forbidden ∧
      guardStatus (setLocked s caller targetId lock).1 = 403) ∧
    (∀ s targetId lock w, findUserById s targetId = some w →
      ∃ s', setLocked s Role.admin targetId lock = (.ok (), s') ∧
        guardStatus (setLocked s Role.admin targetId lock).1 = 200) ∧
    (∀ s e pw u, findByEmail s e = some u → u.locked = true →
      (loginStart s e pw).1 = .error .accountLocked ∧
      loginStartStatus (loginStart s e pw).1 = 423) ∧
    (∀ s targetId e pw u w, findUserById s targetId = some w → findByEmail s e = some u →
      u.id = targetId → u.passwordHash = hashPassword pw → u.twofa = TwoFA.off →
      ∃ s1, setLocked s Role.admin targetId true = (.ok (), s1) ∧
        (loginStart s1 e pw).1 = .error .accountLocked ∧
        loginStartStatus (loginStart s1 e pw).1 = 423 ∧
        ∃ s2, setLocked s1 Role.admin targetId false = (.ok (), s2) ∧
          ∃ a r s3, loginStart s2 e pw = (.ok (.tokens a r), s3) ∧
            loginStartStatus (loginStart s2 e pw).1 = 200) := by
  refine ⟨?_, ?_, ?_, ?_⟩
  · intro s caller targetId lock hc
    unfold setLocked
    rw [if_pos hc]
    exact ⟨rfl, rfl⟩
  · intro s targetId lock w hfw
    have h := setLocked_ok_eq lock hfw
    refine ⟨_, h, ?_⟩
    rw [h]
    rfl
  · intro s e pw u hfe hl
    have h := loginStart_locked_eq pw hfe hl
    rw [h]
    exact ⟨rfl, rfl⟩
  · intro s targetId e pw u w hfw hfe hid hpw h2
    have hfwL : s.users.find? (fun x => x.id == targetId) = some w := hfw
    have hfeL : s.users.find? (fun x => x.email == e) = some u := hfe
    have hs1eq := setLocked_ok_eq true hfw
    have hfe1 : findByEmail (setLocked s Role.admin targetId true).2 e =
        some { u with locked := true } := by
      rw [hs1eq]
      unfold findByEmail
      dsimp only
      rw [find?_users_map _ (by intro x; split <;> rfl) hfeL]
      rw [if_pos (by simp [hid])]
    have hfw1 : findUserById (setLocked s Role.admin targetId true).2 targetId =
        some { w with locked := true } := by
      rw [hs1eq]
      unfold findUserById
      dsimp only
      rw [find?_usersId_map _ (by intro x; split <;> rfl) hfwL]
      have hwid : (w.id == targetId) = true := by
        have := List.find?_some hfwL
        simpa using this
      rw [if_pos hwid]
    refine ⟨(setLocked s Role.admin targetId true).2, ?_, ?_, ?_, ?_⟩
    · rw [hs1eq]
    · rw [loginStart_locked_eq pw hfe1 rfl]
    · rw [loginStart_locked_eq pw hfe1 rfl]
      rfl
    · have hfe1L : (setLocked s Role.admin targetId true).2.users.find?
          (fun x => x.email == e) = some { u with locked := true } := hfe1
      have hs2eq := setLocked_ok_eq false hfw1
      have hfe2 : findByEmail (setLocked (setLocked s Role.admin targetId true).2
          Role.admin targetId false).2 e = some { u with locked := false } := by
        rw [hs2eq]
        unfold findByEmail
        dsimp only
        rw [find?_users_map _ (by intro x; split <;> rfl) hfe1L]
        rw [if_pos (by simp [hid])]
      have hlg := loginStart_nofa_eq hfe2 rfl hpw h2
      refine ⟨(setLocked (setLocked s Role.admin targetId true).2 Role.admin targetId false).2,
        ?_, _, _, _, hlg, ?_⟩
      · rw [hs2eq]
      · rw [hlg]
        rfl


/-- Witness for claim C3 at a concrete state: locking the plain user as
resident is forbidden; as admin it succeeds, login then returns AccountLocked
even with the correct password, and after an admin unlock the same credentials
log in again. -/
theorem c3_lockout_witness :
    (setLocked stGuard Role.resident 2 true).1 = Except.error GuardError.forbidden ∧
    (∃ s1, setLocked stGuard Role.admin 2 true = (Except.ok (), s1) ∧
      (loginStart s1 "plain@example.com" "Pass1234AA").1 =
        Except.error LoginStartError.accountLocked ∧
      ∃ s2, setLocked s1 Role.admin 2 false = (Except.ok (), s2) ∧
        ∃ a r s3, loginStart s2 "plain@example.com" "Pass1234AA" =
          (Except.ok (LoginStartOk.tokens a r), s3)) := by
  constructor
  · exact (c3_lockout.1 stGuard Role.resident 2 true (by decide)).1
  · obtain ⟨s1, h1, h423, hst, s2, h2, a, r, s3, h3, hst2⟩ :=
      c3_lockout.2.2.2 stGuard 2 "plain@example.com" "Pass1234AA" uPlain uPlain
        (by decide) (by decide) rfl rfl rfl
    exact ⟨s1, h1, h423, s2, h2, a, r, s3, h3⟩

/-- Claim C4: role-change authorization. An admin may set any role on any user
with 200; a resident may set role resident or user on a target whose current
role is user or resident with 200; any caller other than admin setting a role
to admin, and a resident granting or revoking admin in any direction, is
forbidden with 403; a user below resident may never change any role; and on a
found target setRole succeeds exactly when canSetRole allows it. -/
theorem c4_role_change_rules :
    (∀ tcur rnew, canSetRole Role.admin tcur rnew = true) ∧
    (∀ tcur rnew, (tcur = Role.user ∨ tcur = Role.resident) →
      (rnew = Role.user ∨ rnew = Role.resident) →
      canSetRole Role.resident tcur rnew = true) ∧
    (∀ c tcur, c ≠ Role.admin → canSetRole c tcur Role.admin = false) ∧
    (∀ rnew, canSetRole Role.resident Role.admin rnew = false) ∧
    (∀ tcur rnew, canSetRole Role.user tcur rnew = false) ∧
    (∀ s caller targetId rnew u, findUserById s targetId = some u →
      (((setRole s caller targetId rnew).1 = .ok () ∧
        guardStatus (setRole s caller targetId rnew).1 = 200) ↔
        canSetRole caller u.role rnew = true) ∧
      (((setRole s caller targetId rnew).1 = .error .forbidden ∧
        guardStatus (setRole s caller targetId rnew).1 = 403) ↔
        canSetRole caller u.role rnew = false)) := by
  refine ⟨by decide, ?_, by decide, by decide, by decide, ?_⟩
  · intro tcur rnew htc hrn
    rcases htc with rfl | rfl <;> rcases hrn with rfl | rfl <;> decide
  · intro s caller targetId rnew u hfu
    simp only [setRole, hfu]
    by_cases hc : canSetRole caller u.role rnew = true
    · rw [if_pos hc]
      constructor
      · simp [hc, guardStatus]
      · simp [hc, guardStatus]
    · rw [if_neg hc]
      have hcf : canSetRole caller u.role rnew = false := by
        simpa using hc
      constructor
      · simp [hcf, guardStatus]
      · simp [hcf, guardStatus]

/-- Witness for claim C4 at concrete inputs: a resident may promote the plain
user to resident, may not grant admin, and the guarded setRole succeeds on the
demo state. -/
theorem c4_role_change_rules_witness :
    canSetRole Role.resident Role.user Role.resident = true ∧
    canSetRole Role.resident Role.user Role.admin = false ∧
    (setRole stGuard Role.resident 2 Role.resident).1 = Except.ok () := by
  refine ⟨?_, ?_, ?_⟩
  · exact c4_role_change_rules.2.1 Role.user Role.resident (Or.inl rfl) (Or.inr rfl)
  · exact c4_role_change_rules.2.2.1 Role.resident Role.user (by decide)
  · have h := (c4_role_change_rules.2.2.2.2.2 stGuard Role.resident 2 Role.resident uPlain
      (by decide)).1
    exact (h.mpr (by decide)).1

/-- Claim C5 counterexample: the password password456 has 11 characters and
contains a digit, so under the claimed rejection condition, exactly fewer than
8 characters or lacking a digit, it would have to be accepted; yet both the
gateway and the auth-service test suites require HTTP 400 for it, and the
modelled policy rejects it as weak for lacking an uppercase letter. -/
theorem c5_counterexample :
    (8 ≤ "password456".length ∧ hasDigit "password456" = true) ∧
    validatePassword "password456" = false ∧
    (signup initState "testuser2" "testuser2@example.com" "password456").1 =
      Except.error SignupError.weakPassword ∧
    signupStatus (signup initState "testuser2" "testuser2@example.com" "password456").1 = 400 := by
  refine ⟨⟨by decide, by decide⟩, by decide, rfl, rfl⟩

/-- Claim C5 as amended: signup rejects a password with WeakPassword and 400,
before any hashing, exactly when it has fewer than 8 characters, lacks a
digit, or lacks an uppercase letter; Pass1234AA and password456A satisfy the
policy while a purely lowercase password such as passwordabcd is rejected. -/
theorem c5_password_policy :
    (∀ pw : String, validatePassword pw = true ↔
      (8 ≤ pw.length ∧ hasDigit pw = true ∧ hasUpper pw = true)) ∧
    (∀ s un em pw, (signup s un em pw).1 = .error .weakPassword ↔
      validatePassword pw = false) ∧
    validatePassword "Pass1234AA" = true ∧
    validatePassword "password456A" = true ∧
    validatePassword "passwordabcd" = false := by
  refine ⟨?_, ?_, by decide, by decide, by decide⟩
  · intro pw
    unfold validatePassword
    simp [Bool.and_eq_true, decide_eq_true_eq, and_assoc]
  · intro s un em pw
    unfold signup
    by_cases hv : validatePassword pw = false
    · rw [if_pos hv]
      simp [hv]
    · rw [if_neg hv]
      have hvt : validatePassword pw = true := by
        simpa using hv
      constructor
      · intro hw
        by_cases hd : (findByEmail s em).isSome = true
        · rw [if_pos hd] at hw
          exact absurd hw (by simp)
        · rw [if_neg hd] at hw
          by_cases hun : (s.users.any fun u => u.username == un) = true
          · rw [if_pos hun] at hw
            exact absurd hw (by simp)
          · rw [if_neg hun] at hw
            exact absurd hw (by simp)
      · intro hf
        rw [hvt] at hf
        exact absurd hf (by simp)


theorem loginStart_2fa_eq {s : AuthState} {e pw : String} {u : User}
    (hfind : findByEmail s e = some u) (hl : u.locked = false)
    (hpw : u.passwordHash = hashPassword pw) (h2 : u.twofa = TwoFA.email) :
    loginStart s e pw =
      (.ok (.secondFactor s.nextId u.id .email),
       { s with
          pendings := { pendingId := s.nextId, userId := u.id,
                        expiresAt := s.now + pendingTTL } :: s.pendings,
          codes := { purpose := .twofaLogin, userId := u.id,
                     codeHash := hashCode (mkCode s.nextId),
                     expiresAt := s.now + codeTTL, consumedAt := none } ::
                   consumeCodes s.codes s.now u.id .twofaLogin,
          nextId := s.nextId + 1 }) := by
  simp only [loginStart, hfind]
  rw [if_neg (by simp [hl])]
  rw [if_neg (by simp [hpw])]
  simp only [h2]

theorem consumeCodes_consumed (codes : List OneTimeCode) (now uid : Nat) (purpose : CodePurpose) :
    ∀ c ∈ consumeCodes codes now uid purpose, c.userId = uid → c.purpose = purpose →
      c.consumedAt ≠ none := by
  intro c hc
  unfold consumeCodes at hc
  rcases List.mem_map.mp hc with ⟨x, hx, rfl⟩
  by_cases hcond : (x.userId == uid && decide (x.purpose = purpose) &&
      decide (x.consumedAt = none)) = true
  · rw [if_pos hcond]
    intro _ _
    simp
  · rw [if_neg hcond]
    intro hcu hcp hnone
    apply hcond
    simp [hcu, hcp, hnone]

theorem loginFinish_eval {st : AuthState} {uid code : Nat} {p : PendingLogin}
    {c : OneTimeCode} {u : User}
    (hfindp : st.pendings.find? (fun q => q.userId == uid) = some p)
    (hpexp : st.now < p.expiresAt)
    (hfindc : st.codes.find? (fun c0 =>
        c0.userId == uid && decide (c0.purpose = CodePurpose.twofaLogin)) = some c)
    (hcexp : st.now < c.expiresAt)
    (hccons : c.consumedAt = none)
    (hchash : c.codeHash = hashCode code)
    (hfu : findUserById st uid = some u) :
    loginFinish st uid code =
      (.ok (issueTokenPair
          { st with
             pendings := st.pendings.filter (fun q => !(q.pendingId == p.pendingId)),
             codes := consumeCodes st.codes st.now uid CodePurpose.twofaLogin } u).1,
       (issueTokenPair
          { st with
             pendings := st.pendings.filter (fun q => !(q.pendingId == p.pendingId)),
             codes := consumeCodes st.codes st.now uid CodePurpose.twofaLogin } u).2) := by
  have hver : verifyCode st.codes st.now uid CodePurpose.twofaLogin code = .ok c := by
    unfold verifyCode
    simp only [hfindc]
    rw [if_neg (Nat.not_le.mpr hcexp)]
    rw [if_neg (by simp [hccons])]
    rw [if_neg (by simp [hchash])]
  unfold loginFinish
  simp only [hfindp]
  rw [if_neg (Nat.not_le.mpr hpexp)]
  simp only [hver, hfu]

/-- Claim C6: two-step 2FA login. For a user with email 2FA enabled, loginStart
with the correct password returns 200 with the second-factor challenge and
issues no tokens; loginFinish presented with that pending identity and the
valid unexpired code consumes the pending login and the code in one update and
returns 200 with a token pair. -/
theorem c6_twofa_login_flow :
    ∀ s e pw u, findByEmail s e = some u → findUserById s u.id = some u →
      u.locked = false → u.passwordHash = hashPassword pw → u.twofa = TwoFA.email →
      ∃ s', loginStart s e pw = (.ok (.secondFactor s.nextId u.id .email), s') ∧
        loginStartStatus (loginStart s e pw).1 = 200 ∧
        s'.tokens = s.tokens ∧
        ∃ a r s'', loginFinish s' u.id (mkCode s.nextId) = (.ok (a, r), s'') ∧
          loginFinishStatus (loginFinish s' u.id (mkCode s.nextId)).1 = 200 ∧
          (∀ q ∈ s''.pendings, q.pendingId ≠ s.nextId) ∧
          (∀ c ∈ s''.codes, c.userId = u.id → c.purpose = CodePurpose.twofaLogin →
            c.consumedAt ≠ none) := by
  intro s e pw u hfe hfu hl hpw h2
  have hstart := loginStart_2fa_eq hfe hl hpw h2
  have hfindp : (loginStart s e pw).2.pendings.find? (fun q => q.userId == u.id) =
      some { pendingId := s.nextId, userId := u.id, expiresAt := s.now + pendingTTL } := by
    rw [hstart]
    exact List.find?_cons_of_pos _ (by simp)
  have hpexp : (loginStart s e pw).2.now <
      ({ pendingId := s.nextId, userId := u.id,
         expiresAt := s.now + pendingTTL } : PendingLogin).expiresAt := by
    rw [hstart]
    show s.now < s.now + pendingTTL
    unfold pendingTTL
    omega
  have hfindc : (loginStart s e pw).2.codes.find? (fun c0 =>
      c0.userId == u.id && decide (c0.purpose = CodePurpose.twofaLogin)) =
      some { purpose := .twofaLogin, userId := u.id,
             codeHash := hashCode (mkCode s.nextId),
             expiresAt := s.now + codeTTL, consumedAt := none } := by
    rw [hstart]
    exact List.find?_cons_of_pos _ (by simp)
  have hcexp : (loginStart s e pw).2.now <
      ({ purpose := .twofaLogin, userId := u.id,
         codeHash := hashCode (mkCode s.nextId),
         expiresAt := s.now + codeTTL, consumedAt := none } : OneTimeCode).expiresAt := by
    rw [hstart]
    show s.now < s.now + codeTTL
    unfold codeTTL
    omega
  have hfu2 : findUserById (loginStart s e pw).2 u.id = some u := by
    rw [hstart]
    exact hfu
  have hfin := loginFinish_eval hfindp hpexp hfindc hcexp rfl rfl hfu2
  refine ⟨(loginStart s e pw).2, ?_, ?_, ?_, ?_⟩
  · rw [hstart]
  · rw [hstart]
    rfl
  · rw [hstart]
  · refine ⟨_, _, _, hfin, ?_, ?_, ?_⟩
    · rw [hfin]
      rfl
    · intro q hq
      have hq2 := List.mem_filter.mp hq
      have hq3 := hq2.2
      simp only [Bool.not_eq_true'] at hq3
      intro hqe
      rw [hqe] at hq3
      simp at hq3
    · intro c hc hcu hcp
      exact consumeCodes_consumed _ _ _ _ c hc hcu hcp


/-- Witness for claim C6 at a concrete state: the 2FA user receives the
second-factor challenge instead of tokens, and finishing with the issued code
returns a token pair. -/
theorem c6_twofa_login_flow_witness :
    (loginStart stGuard "t2fa@example.com" "password789A").1 =
      Except.ok (LoginStartOk.secondFactor stGuard.nextId u2fa.id TwoFA.email) ∧
    ∃ a r, (loginFinish (loginStart stGuard "t2fa@example.com" "password789A").2
      u2fa.id (mkCode stGuard.nextId)).1 = Except.ok (a, r) := by
  obtain ⟨s', h1, h200, htok, a, r, s'', hfin, hfst, hpend, hcode⟩ :=
    c6_twofa_login_flow stGuard "t2fa@example.com" "password789A" u2fa
      (by decide) (by decide) rfl rfl rfl
  constructor
  · rw [h1]
  · have hs' : (loginStart stGuard "t2fa@example.com" "password789A").2 = s' := by rw [h1]
    refine ⟨a, r, ?_⟩
    rw [hs', hfin]

theorem flipByte_ne (n : Nat) : flipByte n ≠ n := by
  unfold flipByte
  intro h
  have h2 : (n ^^^ 255) ^^^ n = 0 := by rw [h, Nat.xor_self]
  rw [Nat.xor_comm n 255, Nat.xor_assoc, Nat.xor_self, Nat.xor_zero] at h2
  exact absurd h2 (by decide)

/-- Claim C7: stateless access-token validation. After a successful login
without 2FA the returned access token validates ok; the same token with any
wrong signature, in particular with its low signature byte flipped, fails
Invalid; validity is decided by validateAccess from the token, key and clock
alone, with no state argument at all. -/
theorem c7_stateless_access_validation :
    (∀ s e pw u, findByEmail s e = some u → u.locked = false →
      u.passwordHash = hashPassword pw → u.twofa = TwoFA.off →
      ∃ r s', loginStart s e pw =
          (.ok (.tokens (mkAccessToken signingKey
            { userId := u.id, role := u.role, exp := s.now + accessTTL }) r), s') ∧
        validateAccess signingKey s.now
            (mkAccessToken signingKey { userId := u.id, role := u.role, exp := s.now + accessTTL }) =
          .ok { userId := u.id, role := u.role, exp := s.now + accessTTL } ∧
        (∀ sg, sg ≠ signClaims signingKey { userId := u.id, role := u.role, exp := s.now + accessTTL } →
          validateAccess signingKey s.now
            { claims := { userId := u.id, role := u.role, exp := s.now + accessTTL }, sig := sg } =
          .error .invalid) ∧
        validateAccess signingKey s.now
          { claims := { userId := u.id, role := u.role, exp := s.now + accessTTL },
            sig := flipByte (signClaims signingKey
              { userId := u.id, role := u.role, exp := s.now + accessTTL }) } =
          .error .invalid) ∧
    (∀ n : Nat, flipByte n ≠ n) := by
  constructor
  · intro s e pw u hfe hl hpw h2
    have hinvalid : ∀ sg, sg ≠ signClaims signingKey
        { userId := u.id, role := u.role, exp := s.now + accessTTL } →
        validateAccess signingKey s.now
          { claims := { userId := u.id, role := u.role, exp := s.now + accessTTL }, sig := sg } =
        .error .invalid := by
      intro sg hsg
      unfold validateAccess
      rw [if_neg (by simp [hsg])]
    refine ⟨mkSecret s.nextId, (issueTokenPair s u).2, loginStart_nofa_eq hfe hl hpw h2, ?_, hinvalid, ?_⟩
    · unfold validateAccess mkAccessToken
      rw [if_pos (by simp)]
      rw [if_pos (show s.now < s.now + accessTTL by unfold accessTTL; omega)]
    · exact hinvalid _ (flipByte_ne _)
  · exact flipByte_ne

/-- Witness for claim C7 at a concrete state: the plain user's token validates
ok and the byte-flipped signature is rejected as invalid. -/
theorem c7_stateless_access_validation_witness :
    validateAccess signingKey stGuard.now
      (mkAccessToken signingKey
        { userId := uPlain.id, role := uPlain.role, exp := stGuard.now + accessTTL }) =
      Except.ok { userId := uPlain.id, role := uPlain.role, exp := stGuard.now + accessTTL } ∧
    validateAccess signingKey stGuard.now
      { claims := { userId := uPlain.id, role := uPlain.role, exp := stGuard.now + accessTTL },
        sig := flipByte (signClaims signingKey
          { userId := uPlain.id, role := uPlain.role, exp := stGuard.now + accessTTL }) } =
      Except.error ValidateError.invalid := by
  obtain ⟨r, s', h1, hval, hany, hflip⟩ :=
    c7_stateless_access_validation.1 stGuard "plain@example.com" "Pass1234AA" uPlain
      (by decide) rfl rfl rfl
  exact ⟨hval, hflip⟩

/-- Claim C8: enumeration resistance. loginStart on an unknown email and
loginStart on a known email with a wrong password produce the same observable
InvalidCredentials outcome with 401 and leave the state unchanged; and the
code engine's verify answers NotFound identically for an expired code and for
a missing code. -/
theorem c8_enumeration_resistance :
    (∀ s e1 pw1 e2 pw2 u, findByEmail s e1 = none → findByEmail s e2 = some u →
      u.locked = false → u.passwordHash ≠ hashPassword pw2 →
      loginStart s e1 pw1 = (.error .invalidCredentials, s) ∧
      loginStart s e2 pw2 = (.error .invalidCredentials, s) ∧
      loginStart s e1 pw1 = loginStart s e2 pw2 ∧
      loginStartStatus (loginStart s e1 pw1).1 = 401 ∧
      loginStartStatus (loginStart s e2 pw2).1 = 401) ∧
    (∀ codes now uid purpose code,
      (codes.find? (fun c0 => c0.userId == uid && decide (c0.purpose = purpose)) = none →
        verifyCode codes now uid purpose code = .error .notFound) ∧
      (∀ c, codes.find? (fun c0 => c0.userId == uid && decide (c0.purpose = purpose)) = some c →
        c.expiresAt ≤ now → verifyCode codes now uid purpose code = .error .notFound)) := by
  constructor
  · intro s e1 pw1 e2 pw2 u h1 h2 hl hpw
    have ha := loginStart_unknown_eq pw1 h1
    have hb := loginStart_wrongpw_eq h2 hl hpw
    refine ⟨ha, hb, ?_, ?_, ?_⟩
    · rw [ha, hb]
    · rw [ha]
      rfl
    · rw [hb]
      rfl
  · intro codes now uid purpose code
    constructor
    · intro hn
      unfold verifyCode
      simp only [hn]
    · intro c hc hle
      unfold verifyCode
      simp only [hc]
      rw [if_pos hle]

/-- Witness for claim C8 at concrete inputs: an unknown email and a wrong
password give identical outcomes on the demo state, and the code engine
answers NotFound both for an expired code and for an absent one. -/
theorem c8_enumeration_resistance_witness :
    loginStart stGuard "nobody@example.com" "whatever1A" =
      loginStart stGuard "plain@example.com" "WrongPass1A" ∧
    verifyCode [demoCode] 5 5 CodePurpose.twofaLogin 9 = Except.error CodeError.notFound ∧
    verifyCode [demoCode] 5 6 CodePurpose.twofaLogin 9 = Except.error CodeError.notFound := by
  refine ⟨?_, ?_, ?_⟩
  · exact (c8_enumeration_resistance.1 stGuard "nobody@example.com" "whatever1A"
      "plain@example.com" "WrongPass1A" uPlain (by decide) (by decide) rfl
      (by decide)).2.2.1
  · exact (c8_enumeration_resistance.2 [demoCode] 5 5 CodePurpose.twofaLogin 9).2 demoCode
      (by decide) (by decide)
  · exact (c8_enumeration_resistance.2 [demoCode] 5 6 CodePurpose.twofaLogin 9).1 (by decide)

/-- Claim C10: the seeded admin account authenticates with the 5-character
password admin, which the signup policy rejects as weak; the policy is applied
at account creation but never at login, so pre-seeded credentials outside the
policy remain usable. -/
theorem c10_seeded_admin_bypasses_policy :
    validatePassword "admin" = false ∧
    (signup initState "x" "x@example.com" "admin").1 = Except.error SignupError.weakPassword ∧
    signupStatus (signup initState "x" "x@example.com" "admin").1 = 400 ∧
    (∃ a r, (loginStart initState "admin@example.com" "admin").1 =
      Except.ok (LoginStartOk.tokens a r)) ∧
    loginStartStatus (loginStart initState "admin@example.com" "admin").1 = 200 := by
  refine ⟨by decide, rfl, rfl, ⟨_, _, rfl⟩, rfl⟩

end Homenavi
